import Mathlib

/-!
Verification development for the BotTele repository (Telegram crypto
price/conversion bot, `bot.py` plus `utils/crypto.py`).

The definitions below are a shallow embedding of the pieces of the source
that the claims are about: the regex-based free-text intent router
(`PAIR_PATTERN`, `COIN_FIAT_PAT`, `SINGLE_COIN`, `text_router`), the symbol
resolver (`resolve_coin_id`, `SYMBOL_MAP`, `Crypto.norm_symbol`), the price
fetch (`fetch_price`), the price formatters (`fmt_price` in both files),
and the command handlers (`setfiat_cmd`, `price_cmd`, `prices_cmd`,
`convert_cmd`) together with the per-chat fiat preference store.

Modelling conventions:
- Python strings are Lean `String`/`List Char`; `str.lower`/`str.upper`
  are modelled on the ASCII range (all tickers/fiats of interest are ASCII).
- Python `float` values are modelled as `ℚ` (exact decimal arithmetic; the
  concrete inputs used in the theorems are not affected by binary rounding).
- Network calls (CoinGecko search, simple/price) are passed in explicitly
  as function parameters; a failing call is the function returning
  `none` / an empty payload, exactly as the source's `try/except` wrappers
  turn failures into `None` / `{}`.
- The three `re` patterns are compiled by hand into total matchers with
  Python's leftmost/greedy backtracking semantics (only the `[0-9.]+`
  amount group of `PAIR_PATTERN` ever needs backtracking; all other
  adjacent character classes are disjoint, so maximal munch is exact).
-/

/-! ## Character classes and basic string helpers -/

/-- Whitespace as matched by Python's `\s` (for `str` patterns) and by
`str.strip()` / `str.isspace()`. -/
def pyWs (c : Char) : Bool :=
  let n := c.toNat
  (9 ≤ n && n ≤ 13) || n == 32 || (28 ≤ n && n ≤ 31) || n == 133 || n == 160 ||
  n == 0x1680 || (0x2000 ≤ n && n ≤ 0x200a) || n == 0x2028 || n == 0x2029 ||
  n == 0x202f || n == 0x205f || n == 0x3000

/-- The class `[a-zA-Z0-9]` used by the router's patterns. -/
def isAlnum (c : Char) : Bool :=
  ('a' ≤ c && c ≤ 'z') || ('A' ≤ c && c ≤ 'Z') || ('0' ≤ c && c ≤ '9')

/-- The class `[0-9]`. -/
def isDigit (c : Char) : Bool := '0' ≤ c && c ≤ '9'

/-- The class `[0-9.]` of `PAIR_PATTERN`'s amount group. -/
def isDigitDot (c : Char) : Bool := isDigit c || c == '.'

/-- The class `[/ ]` of `COIN_FIAT_PAT`'s separator. -/
def isSlashSpace (c : Char) : Bool := c == '/' || c == ' '

/-- The class `[a-z0-9-]` of `resolve_coin_id`'s id-shape check. -/
def isIdChar (c : Char) : Bool :=
  ('a' ≤ c && c ≤ 'z') || ('0' ≤ c && c ≤ '9') || c == '-'

/-- ASCII model of Python `str.lower` on one character. -/
def asciiLower (c : Char) : Char :=
  if 65 ≤ c.toNat ∧ c.toNat ≤ 90 then Char.ofNat (c.toNat + 32) else c

/-- ASCII model of Python `str.upper` on one character. -/
def asciiUpper (c : Char) : Char :=
  if 97 ≤ c.toNat ∧ c.toNat ≤ 122 then Char.ofNat (c.toNat - 32) else c

/-- Python `str.lower` (ASCII model). -/
def lowerStr (s : String) : String := String.mk (s.data.map asciiLower)

/-- Python `str.upper` (ASCII model). -/
def upperStr (s : String) : String := String.mk (s.data.map asciiUpper)

/-- Python `str.strip()` on a character list. -/
def pyStrip (l : List Char) : List Char :=
  ((l.dropWhile pyWs).reverse.dropWhile pyWs).reverse

/-- Python `str.strip()` on a string. -/
def pyStripStr (s : String) : String := String.mk (pyStrip s.data)

/-! ## The three router regexes (bot.py lines 114-116)

`PAIR_PATTERN = ^\s*([0-9.]+)\s*([a-zA-Z0-9]+)\s+([a-zA-Z0-9]+)\s*$`
`COIN_FIAT_PAT = ^\s*([a-zA-Z0-9]+)[/ ]+([a-zA-Z0-9]+)\s*$`
`SINGLE_COIN = ^\s*([a-zA-Z0-9]{2,10})\s*$`
-/

/-- Matches the tail `\s*([a-zA-Z0-9]+)\s+([a-zA-Z0-9]+)\s*$` of
`PAIR_PATTERN` after the amount group.  Each greedy step is exact here:
every pair of adjacent classes is disjoint, so Python's backtracking can
never recover from a maximal-munch failure. -/
def pairTail (r : List Char) : Option (List Char × List Char) :=
  let t := r.dropWhile pyWs
  let g2 := t.takeWhile isAlnum
  let r2 := t.dropWhile isAlnum
  if g2.isEmpty then none else
  let sp := r2.takeWhile pyWs
  let r3 := r2.dropWhile pyWs
  if sp.isEmpty then none else
  let g3 := r3.takeWhile isAlnum
  let r4 := r3.dropWhile isAlnum
  if g3.isEmpty then none else
  if (r4.dropWhile pyWs).isEmpty then some (g2, g3) else none

/-- Python's backtracking over the greedy `[0-9.]+` amount group: try the
amount length `n, n-1, ..., 1` (longest first) until the tail matches. -/
def pairTryLens (t : List Char) : Nat → Option (List Char × List Char × List Char)
  | 0 => none
  | n + 1 =>
    match pairTail (t.drop (n + 1)) with
    | some (g2, g3) => some (t.take (n + 1), g2, g3)
    | none => pairTryLens t n

/-- `PAIR_PATTERN.match(text)`: captures (amount, symbol, fiat). -/
def PAIR_PATTERN (s : List Char) : Option (List Char × List Char × List Char) :=
  let t := s.dropWhile pyWs
  pairTryLens t (t.takeWhile isDigitDot).length

/-- `COIN_FIAT_PAT.match(text)`: captures (symbol, fiat).  All adjacent
classes are disjoint, so maximal munch is exactly Python's semantics. -/
def COIN_FIAT_PAT (s : List Char) : Option (List Char × List Char) :=
  let t := s.dropWhile pyWs
  let g1 := t.takeWhile isAlnum
  let r1 := t.dropWhile isAlnum
  if g1.isEmpty then none else
  let sep := r1.takeWhile isSlashSpace
  let r2 := r1.dropWhile isSlashSpace
  if sep.isEmpty then none else
  let g2 := r2.takeWhile isAlnum
  let r3 := r2.dropWhile isAlnum
  if g2.isEmpty then none else
  if (r3.dropWhile pyWs).isEmpty then some (g1, g2) else none

/-- `SINGLE_COIN.match(text)`: captures the single 2-10 character token. -/
def SINGLE_COIN (s : List Char) : Option (List Char) :=
  let t := s.dropWhile pyWs
  let g := t.takeWhile isAlnum
  let r := t.dropWhile isAlnum
  if 2 ≤ g.length && g.length ≤ 10 && (r.dropWhile pyWs).isEmpty
  then some g else none

/-! ## Python float parsing -/

/-- Numeric value of a digit list (most significant first). -/
def digitsToNat (l : List Char) : Nat :=
  l.foldl (fun a c => a * 10 + (c.toNat - 48)) 0

/-- Parses the optional exponent suffix `([eE][+-]?digits)?$` of a Python
float literal; returns the exponent. -/
def pyFloatExp (l : List Char) : Option ℤ :=
  match l with
  | [] => some 0
  | e :: r =>
    if e == 'e' || e == 'E' then
      let sg : ℤ := match r with | '-' :: _ => -1 | _ => 1
      let r2 := match r with | '+' :: t => t | '-' :: t => t | _ => r
      let ds := r2.takeWhile isDigit
      if ds.isEmpty || !(r2.dropWhile isDigit).isEmpty then none
      else some (sg * (digitsToNat ds : ℤ))
    else none

/-- Model of Python `float(s)` on decimal literals: optional surrounding
whitespace, optional sign, `digits[.digits]` or `.digits`, optional
exponent.  (`inf`/`nan`/underscore literals are outside the model; they are
not representable in `ℚ` and are irrelevant to every claim.)  Returns
`none` exactly when Python raises `ValueError`. -/
def pyFloat (s : String) : Option ℚ :=
  let l0 := pyStrip s.data
  let sg : ℚ := match l0 with | '-' :: _ => -1 | _ => 1
  let l1 := match l0 with | '+' :: r => r | '-' :: r => r | _ => l0
  let ip := l1.takeWhile isDigit
  let r1 := l1.dropWhile isDigit
  let hasDot : Bool := match r1 with | '.' :: _ => true | _ => false
  let fp := if hasDot then r1.tail.takeWhile isDigit else []
  let r2 := if hasDot then r1.tail.dropWhile isDigit else r1
  if ip.isEmpty && fp.isEmpty then none
  else
    match pyFloatExp r2 with
    | none => none
    | some ex =>
      some (sg * ((digitsToNat ip : ℚ) + (digitsToNat fp : ℚ) / (10 : ℚ) ^ fp.length)
        * (10 : ℚ) ^ ex)

/-! ## The free-text intent router (bot.py text_router, lines 645-687) -/

/-- The intent produced by one pass of `text_router`'s pattern chain.
`convert` is the amount-conversion branch (pattern 1), `pair` the
coin/fiat branch (pattern 2), `single` the bare-coin branch (pattern 3),
and `unrecognized` the fallback (AI reply or "Perintah tidak dikenali"). -/
inductive ParsedIntent where
  | convert (amountStr sym fiat : String)
  | pair (sym fiat : String)
  | single (sym : String)
  | unrecognized
deriving DecidableEq

def ParsedIntent.isConvert : ParsedIntent → Bool
  | .convert _ _ _ => true
  | _ => false

def ParsedIntent.isPair : ParsedIntent → Bool
  | .pair _ _ => true
  | _ => false

def ParsedIntent.isSingle : ParsedIntent → Bool
  | .single _ => true
  | _ => false

def ParsedIntent.isUnrecognized : ParsedIntent → Bool
  | .unrecognized => true
  | _ => false

/-- The classification performed by `text_router`: strip the message, then
try `PAIR_PATTERN`, `COIN_FIAT_PAT`, `SINGLE_COIN` in order; the fiat
captures are lowercased as in the source. -/
def text_router (msg : String) : ParsedIntent :=
  let text := pyStripStr msg
  match PAIR_PATTERN text.data with
  | some (a, sy, fi) => .convert (String.mk a) (String.mk sy) (lowerStr (String.mk fi))
  | none =>
    match COIN_FIAT_PAT text.data with
    | some (sy, fi) => .pair (String.mk sy) (lowerStr (String.mk fi))
    | none =>
      match SINGLE_COIN text.data with
      | some sy => .single (String.mk sy)
      | none => .unrecognized

/-! ## Decimal rendering of Python f-string formats -/

/-- Decimal digits of `n`, most significant first (fuel-based so that it
reduces in the kernel); `0` renders as `"0"`. -/
def natDigitsAux : Nat → Nat → List Char
  | 0, _ => []
  | f + 1, n =>
    if n < 10 then [Char.ofNat (48 + n)]
    else natDigitsAux f (n / 10) ++ [Char.ofNat (48 + n % 10)]

def natDigits (n : Nat) : List Char := natDigitsAux (n + 1) n

/-- Inserts `','` after every third digit counting from the right; works on
the reversed digit list. -/
def group3Rev : List Char → List Char
  | a :: b :: c :: d :: rest => a :: b :: c :: ',' :: group3Rev (d :: rest)
  | l => l

/-- Thousands grouping as in Python's `,` format flag. -/
def group3 (ds : List Char) : List Char := (group3Rev ds.reverse).reverse

/-- Round half to even (banker's rounding), as used by Python `%.Nf`
formatting on the scaled value. -/
def rheInt (x : ℚ) : ℤ :=
  let f := x.floor
  let r := x - (f : ℚ)
  if r < 1 / 2 then f else if 1 / 2 < r then f + 1
  else if f % 2 = 0 then f else f + 1

/-- Zero-pads a digit list on the left to width `k`. -/
def padZeros (k : Nat) (l : List Char) : List Char :=
  List.replicate (k - l.length) '0' ++ l

/-- Python `f"{q:,.ndf}"`: sign, thousands-grouped integer part, and
exactly `nd` fractional digits (round half to even). -/
def fmtCommaFixed (nd : Nat) (q : ℚ) : String :=
  let neg := q < 0
  let m := (rheInt ((if q < 0 then -q else q) * (10 : ℚ) ^ nd)).toNat
  let ip := m / 10 ^ nd
  let fp := m % 10 ^ nd
  let frac := if nd == 0 then [] else '.' :: padZeros nd (natDigits fp)
  String.mk ((if neg then ['-'] else []) ++ group3 (natDigits ip) ++ frac)

/-- Python `f"{q:.ndf}"` (no grouping). -/
def fmtFixed (nd : Nat) (q : ℚ) : String :=
  let neg := q < 0
  let m := (rheInt ((if q < 0 then -q else q) * (10 : ℚ) ^ nd)).toNat
  let ip := m / 10 ^ nd
  let fp := m % 10 ^ nd
  let frac := if nd == 0 then [] else '.' :: padZeros nd (natDigits fp)
  String.mk ((if neg then ['-'] else []) ++ natDigits ip ++ frac)

/-- Python `f"{q:+.2f}"`: like `fmtFixed 2` but with an explicit sign. -/
def fmtSignedTwo (q : ℚ) : String :=
  if q < 0 then fmtFixed 2 q else "+" ++ fmtFixed 2 q

/-- The 24h-change suffix `f" (24h: {chg:+.2f}%)"`, empty when the payload
did not supply a numeric change (bot.py's `isinstance` guard). -/
def chgTxt : Option ℚ → String
  | none => ""
  | some c => " (24h: " ++ fmtSignedTwo c ++ "%)"

/-- `fmt_price` of bot.py (lines 107-111): `f"{val:,.4f} {fiat.upper()}"`.
The `except` arm is unreachable for numeric values. -/
def fmt_price (val : ℚ) (fiat : String) : String :=
  fmtCommaFixed 4 val ++ " " ++ upperStr fiat

/-! ## CoinGecko payload model

The JSON returned by `/simple/price` is a dict of dicts of numbers, e.g.
`{"bitcoin": {"usd": 50000.0, "usd_24h_change": 1.23}}`; modelled as a
nested association list. -/

abbrev Payload := List (String × List (String × ℚ))

/-- `cid in data and key in data[cid]` followed by `data[cid][key]`. -/
def payloadLookup (data : Payload) (cid key : String) : Option ℚ :=
  (data.lookup cid).bind (fun m => m.lookup key)

/-! ## Symbol resolution (bot.py lines 66-88) -/

/-- `SYMBOL_MAP` of bot.py (lines 66-72). -/
def SYMBOL_MAP : List (String × String) :=
  [("btc", "bitcoin"), ("eth", "ethereum"), ("bnb", "binancecoin"),
   ("usdt", "tether"), ("usdc", "usd-coin"), ("sol", "solana"),
   ("ada", "cardano"), ("xrp", "ripple"), ("dot", "polkadot"),
   ("doge", "dogecoin"), ("trx", "tron"), ("matic", "polygon"),
   ("ltc", "litecoin"), ("avax", "avalanche-2"), ("link", "chainlink"),
   ("ton", "the-open-network"), ("op", "optimism"), ("arb", "arbitrum"),
   ("atom", "cosmos"), ("sui", "sui"), ("apt", "aptos"), ("near", "near"),
   ("fil", "filecoin"), ("bch", "bitcoin-cash"), ("etc", "ethereum-classic")]

/-- `re.fullmatch(r"[a-z0-9-]{3,}", s)` as a Boolean test. -/
def idShape (l : List Char) : Bool := 3 ≤ l.length && l.all isIdChar

/-- `resolve_coin_id` of bot.py (lines 74-88).  `search` models the
`/search` network tier: it returns the top-ranked id, or `none` when the
request fails or yields no coins (the `try/except` swallows failures and
the function falls through to `return None`). -/
def resolve_coin_id (sym : String) (search : String → Option String) : Option String :=
  let s := pyStripStr (lowerStr sym)
  match SYMBOL_MAP.lookup s with
  | some cid => some cid
  | none =>
    if idShape s.data then some s
    else search s

/-- `fetch_price` of bot.py (lines 90-105).  `up` models one
`requests.get` of `/simple/price` (an empty payload models the `except`
arm returning `{}`).  The call counter makes the network effect explicit:
the body performs exactly one upstream request per invocation — bot.py has
no quote cache. -/
def fetch_price (up : List String → String → Payload) (ids : List String)
    (fiat : String) (calls : Nat) : Payload × Nat :=
  (up ids fiat, calls + 1)

/-! ## Per-chat fiat preferences (bot.py lines 55-61) -/

/-- `get_chat_fiat`: `FIAT_PREFS.get(chat_id, FIAT_DEFAULT)`.  The store is
the dict `FIAT_PREFS`, passed explicitly; `df` is `FIAT_DEFAULT`. -/
def get_chat_fiat (prefs : Int → Option String) (df : String) (chatId : Int) : String :=
  (prefs chatId).getD df

/-- `set_chat_fiat`: `FIAT_PREFS[chat_id] = fiat.lower()`. -/
def set_chat_fiat (prefs : Int → Option String) (chatId : Int) (fiat : String) :
    Int → Option String :=
  fun c => if c = chatId then some (lowerStr fiat) else prefs c

/-! ## utils/crypto.py -/

namespace Crypto

/-- `SYMBOL_MAP` of utils/crypto.py (lines 11-17). -/
def SYMBOL_MAP : List (String × String) :=
  [("btc", "bitcoin"), ("xbt", "bitcoin"), ("eth", "ethereum"),
   ("bnb", "binancecoin"), ("sol", "solana"), ("usdt", "tether"),
   ("usdc", "usd-coin"), ("xrp", "ripple"), ("ada", "cardano"),
   ("doge", "dogecoin"), ("ton", "toncoin"), ("dot", "polkadot"),
   ("matic", "matic-network"), ("avax", "avalanche-2"), ("ltc", "litecoin"),
   ("shib", "shiba-inu"), ("link", "chainlink"), ("trx", "tron"),
   ("op", "optimism"), ("arb", "arbitrum"), ("sui", "sui"),
   ("sei", "sei-network"), ("near", "near"), ("atom", "cosmos"),
   ("cake", "pancakeswap-token")]

/-- `norm_symbol` of utils/crypto.py (lines 19-20):
`SYMBOL_MAP.get(sym.lower().lstrip("$"), sym.lower().lstrip("$"))`. -/
def norm_symbol (sym : String) : String :=
  let key := String.mk ((sym.data.map asciiLower).dropWhile (· == '$'))
  match SYMBOL_MAP.lookup key with
  | some v => v
  | none => key

/-- `fmt_price` of utils/crypto.py (lines 22-29).  The `.replace(",", ".")`
of the idr arm swaps the thousands separator. -/
def fmt_price (val : ℚ) (fiat : String) : String :=
  if fiat = "idr" then
    "Rp " ++ String.mk ((fmtCommaFixed 0 val).data.map (fun c => if c = ',' then '.' else c))
  else if fiat = "usd" ∨ fiat = "usdt" then "$" ++ fmtCommaFixed 2 val
  else if fiat = "eur" then "€" ++ fmtCommaFixed 2 val
  else fmtCommaFixed 4 val ++ " " ++ upperStr fiat

end Crypto

/-! ## Command handlers (bot.py lines 416-524)

Each handler is modelled as a pure function from its inputs (parsed
`ctx.args`, the per-chat fiat, and the two network tiers) to the reply it
produces; replies that carry data are structured so the theorems can speak
about what is displayed. -/

/-- Reply of `/setfiat` (bot.py lines 416-429). -/
inductive SetFiatReply where
  | showCurrent (cur : String)
  | invalid
  | okSet (fiat : String)
deriving DecidableEq

/-- `setfiat_cmd`: validates `args[0].lower()` against the literal set
`{"idr","usd","usdt","eur"}`; on success stores it via `set_chat_fiat`.
Returns the reply and the updated preference store. -/
def setfiat_cmd (args : List String) (prefs : Int → Option String) (df : String)
    (chatId : Int) : SetFiatReply × (Int → Option String) :=
  match args with
  | [] => (.showCurrent (upperStr (get_chat_fiat prefs df chatId)), prefs)
  | a :: _ =>
    let fiat := lowerStr a
    if fiat ∈ ["idr", "usd", "usdt", "eur"] then (.okSet fiat, set_chat_fiat prefs chatId fiat)
    else (.invalid, prefs)

/-- Reply of `/price` and of the bare pair/single-coin text paths
(bot.py `reply_price`, lines 452-464). -/
inductive PriceReply where
  | usage
  | notFound (sym : String)
  | pairUnavailable (sym fiat : String)
  | quote (sym fiat : String) (price : ℚ) (chg : Option ℚ)
deriving DecidableEq

/-- `reply_price`: resolve the symbol, fetch the price, and reply; the
24h change is included only when present in the payload. -/
def reply_price (sym fiat : String) (search : String → Option String)
    (up : List String → String → Payload) : PriceReply :=
  match resolve_coin_id sym search with
  | none => .notFound sym
  | some cid =>
    let data := (fetch_price up [cid] fiat 0).1
    match payloadLookup data cid fiat with
    | none => .pairUnavailable sym fiat
    | some price => .quote sym fiat price (payloadLookup data cid (fiat ++ "_24h_change"))

/-- `price_cmd` (bot.py lines 466-473): `/price <symbol> [fiat]`; the fiat
defaults to the chat's preference and is lowercased, with no allow-list
validation of any kind. -/
def price_cmd (args : List String) (chatFiat : String) (search : String → Option String)
    (up : List String → String → Payload) : PriceReply :=
  match args with
  | [] => .usage
  | sym :: rest =>
    let fiat := lowerStr (match rest with | f :: _ => f | [] => chatFiat)
    reply_price sym fiat search up

/-- Python `"a,b".split(",")` on a character list. -/
def splitComma : List Char → List (List Char)
  | [] => [[]]
  | ',' :: rest => [] :: splitComma rest
  | c :: rest =>
    match splitComma rest with
    | h :: t => (c :: h) :: t
    | [] => [[c]]

/-- One rendered line of `/prices`:
`f"• {name} = {fmt_price(price, fiat)}{chg_txt}"`. -/
def quoteLine (name fiat : String) (price : ℚ) (chg : Option ℚ) : String :=
  "• " ++ name ++ " = " ++ fmt_price price fiat ++ chgTxt chg

/-- The `for cid in ids` rendering loop of `prices_cmd`: ids found in the
payload produce their line; ids missing from the payload produce nothing. -/
def renderLines (ids : List String) (nameOf : String → String) (data : Payload)
    (fiat : String) : List String :=
  ids.filterMap fun cid =>
    (payloadLookup data cid fiat).map fun p =>
      quoteLine (nameOf cid) fiat p (payloadLookup data cid (fiat ++ "_24h_change"))

/-- Reply of `/prices` (bot.py lines 475-498). -/
inductive PricesReply where
  | usage
  | noCoins
  | fetchFailed
  | linesOut (lines : List String)
deriving DecidableEq

/-- `prices_cmd`: split `args[0]` on commas, resolve each coin (dropping
unresolved ones), batch-fetch, and render one line per id found in the
payload; `name_map` keeps the last writer per id as the Python dict does. -/
def prices_cmd (args : List String) (chatFiat : String) (search : String → Option String)
    (up : List String → String → Payload) : PricesReply :=
  match args with
  | [] => .usage
  | a0 :: rest =>
    let coins := ((splitComma a0.data).map pyStrip).filter (fun c => !c.isEmpty)
      |>.map String.mk
    let fiat := lowerStr (match rest with | f :: _ => f | [] => chatFiat)
    let pairs := coins.filterMap fun c =>
      (resolve_coin_id c search).map fun cid => (cid, upperStr c)
    let ids := pairs.map Prod.fst
    if ids.isEmpty then .noCoins
    else
      let data := (fetch_price up ids fiat 0).1
      let lines := renderLines ids (fun cid => ((pairs.reverse).lookup cid).getD "") data fiat
      if lines.isEmpty then .fetchFailed else .linesOut lines

/-- Reply of `/convert` (bot.py lines 500-524). -/
inductive ConvertReply where
  | usage
  | amountError
  | coinNotFound
  | pairUnavailable
  | success (amount : ℚ) (sym fiat : String) (total : ℚ) (chg : Option ℚ)
deriving DecidableEq

/-- `convert_cmd`: `/convert <amount> <coin> <fiat>`.  The amount is
`float(ctx.args[0])` with no further validation — zero and negative
amounts flow straight through to `total = price * amount`. -/
def convert_cmd (args : List String) (search : String → Option String)
    (up : List String → String → Payload) : ConvertReply :=
  match args with
  | a0 :: a1 :: a2 :: _ =>
    match pyFloat a0 with
    | none => .amountError
    | some amount =>
      let sym := a1
      let fiat := lowerStr a2
      match resolve_coin_id sym search with
      | none => .coinNotFound
      | some cid =>
        let data := (fetch_price up [cid] fiat 0).1
        match payloadLookup data cid fiat with
        | none => .pairUnavailable
        | some price =>
          .success amount sym fiat (price * amount)
            (payloadLookup data cid (fiat ++ "_24h_change"))
  | _ => .usage

/-! ## Helper lemmas -/

theorem mem_of_lookup_eq_some {α β : Type} [BEq α] [LawfulBEq α]
    {l : List (α × β)} {k : α} {v : β} (h : l.lookup k = some v) : (k, v) ∈ l := by
  induction l with
  | nil => simp [List.lookup] at h
  | cons p t ih =>
    obtain ⟨a, b⟩ := p
    simp only [List.lookup] at h
    cases hbe : k == a with
    | true =>
      rw [hbe] at h
      simp only [Option.some.injEq] at h
      subst h
      rw [eq_of_beq hbe]
      exact List.mem_cons_self _ _
    | false =>
      rw [hbe] at h
      exact List.mem_cons_of_mem _ (ih h)

theorem char_toNat_ofNat_valid {n : Nat} (h : n.isValidChar) : (Char.ofNat n).toNat = n := by
  rw [Char.ofNat, dif_pos h]
  rfl

theorem asciiLower_idem (c : Char) : asciiLower (asciiLower c) = asciiLower c := by
  unfold asciiLower
  by_cases h : 65 ≤ c.toNat ∧ c.toNat ≤ 90
  · rw [if_pos h]
    have hv : (c.toNat + 32).isValidChar := Or.inl (by omega)
    rw [if_neg]
    rw [char_toNat_ofNat_valid hv]
    omega
  · rw [if_neg h, if_neg h]

theorem map_asciiLower_idem (l : List Char) :
    (l.map asciiLower).map asciiLower = l.map asciiLower := by
  rw [List.map_map]
  exact List.map_congr_left fun a _ => asciiLower_idem a

theorem dropWhile_dropWhile (p : Char → Bool) (l : List Char) :
    (l.dropWhile p).dropWhile p = l.dropWhile p := by
  induction l with
  | nil => rfl
  | cons a t ih =>
    rw [List.dropWhile_cons]
    by_cases h : p a = true
    · rw [if_pos h]; exact ih
    · rw [if_neg h, List.dropWhile_cons, if_neg h]

/-! ## Claim theorems -/

/-- C1: free-text intent parsing is total — `text_router` is a total
function and classifies every input string (including the empty string,
pure whitespace, and emoji-only text) into exactly one of the four
intents: amount-conversion, coin/fiat pair, single coin, or the
unrecognized fallback; no input raises an exception. -/
theorem text_router_total_one_intent :
    (∀ s : String,
      (text_router s).isConvert.toNat + (text_router s).isPair.toNat +
        (text_router s).isSingle.toNat + (text_router s).isUnrecognized.toNat = 1)
    ∧ text_router "" = .unrecognized
    ∧ text_router " \t " = .unrecognized
    ∧ text_router "🚀🔥" = .unrecognized := by
  refine ⟨fun s => ?_, by decide, by decide, by decide⟩
  cases text_router s <;>
    simp [ParsedIntent.isConvert, ParsedIntent.isPair, ParsedIntent.isSingle,
      ParsedIntent.isUnrecognized]

/-- C10: the per-chat fiat preference store satisfies the set/get frame
property: after `set_chat_fiat prefs c f`, reading chat `c` yields
`f.lower()`, reading any other chat `c'` is unchanged, and a chat never
set reads as the global default fiat (`FIAT_DEFAULT`). -/
theorem fiat_prefs_frame :
    ∀ (prefs : Int → Option String) (df : String) (c : Int) (f : String),
      get_chat_fiat (set_chat_fiat prefs c f) df c = lowerStr f
      ∧ (∀ c' : Int, c' ≠ c →
          get_chat_fiat (set_chat_fiat prefs c f) df c' = get_chat_fiat prefs df c')
      ∧ (∀ c₀ : Int, prefs c₀ = none → get_chat_fiat prefs df c₀ = df) := by
  intro prefs df c f
  refine ⟨?_, fun c' hne => ?_, fun c₀ h0 => ?_⟩
  · simp [get_chat_fiat, set_chat_fiat]
  · simp [get_chat_fiat, set_chat_fiat, hne]
  · simp [get_chat_fiat, h0]

/-- Witness for C10 at concrete inputs. -/
theorem fiat_prefs_frame_witness :
    ((2 : Int) ≠ 1)
    ∧ get_chat_fiat (set_chat_fiat (fun _ => none) 1 "USD") "usd" 1 = lowerStr "USD"
    ∧ get_chat_fiat (set_chat_fiat (fun _ => none) 1 "USD") "usd" 2
        = get_chat_fiat (fun _ => none) "usd" 2
    ∧ ((fun _ => none : Int → Option String) 5 = none)
    ∧ get_chat_fiat (fun _ => none) "usd" 5 = "usd" :=
  ⟨by decide,
   (fiat_prefs_frame (fun _ => none) "usd" 1 "USD").1,
   (fiat_prefs_frame (fun _ => none) "usd" 1 "USD").2.1 2 (by decide),
   rfl,
   (fiat_prefs_frame (fun _ => none) "usd" 1 "USD").2.2 5 rfl⟩

/-- C8 counterexample: two price requests for the same `(asset_id, fiat)`
pair result in two upstream network calls, not one — `fetch_price` in
bot.py has no quote cache at all, so the claimed TTL-window cache hit does
not exist. -/
theorem fetch_price_two_calls_cex :
    ((fetch_price (fun _ _ => [("bitcoin", [("usd", (50000 : ℚ))])]) ["bitcoin"] "usd"
        (fetch_price (fun _ _ => [("bitcoin", [("usd", (50000 : ℚ))])]) ["bitcoin"] "usd" 0).2).2
      = 2)
    ∧ (2 : Nat) ≠ 1 := ⟨rfl, by decide⟩

/-- C8 amended: bot.py keeps no quote cache; every `fetch_price`
invocation performs exactly one upstream request, so two requests for the
same `(asset_id, fiat)` pair — however close in time — perform two. -/
theorem fetch_price_always_calls :
    ∀ (up : List String → String → Payload) (ids : List String) (fiat : String) (calls : Nat),
      (fetch_price up ids fiat calls).2 = calls + 1
      ∧ (fetch_price up ids fiat (fetch_price up ids fiat calls).2).2 = calls + 2 :=
  fun _ _ _ _ => ⟨rfl, rfl⟩

/-- C2 counterexample: the amount literals `"1.234,56"` and `"1,234.56"`
do not both parse to 1234.56 — a comma never parses at all: both
free-text conversion lines fall through to the unrecognized fallback, and
`float()` (the `/convert` path) rejects both literals. -/
theorem comma_amount_cex :
    text_router "1.234,56 eth idr" = .unrecognized
    ∧ text_router "1,234.56 eth idr" = .unrecognized
    ∧ pyFloat "1.234,56" = none
    ∧ pyFloat "1,234.56" = none := by
  refine ⟨by decide, by decide, by decide, by decide⟩

/-- C3 counterexample: `resolve_coin_id` fabricates an asset id from the
input — with the static table missing the key and the network search
failing, `"zzzz"` resolves to `some "zzzz"` (the id-shape passthrough)
instead of `NotFound`; and no currency glyph is stripped: `"$BTC"`
resolves to `none` even though the alias table maps the glyph-stripped
form `"btc"` to `"bitcoin"`. -/
theorem resolve_coin_id_fabricates_cex :
    resolve_coin_id "zzzz" (fun _ => none) = some "zzzz"
    ∧ resolve_coin_id "$BTC" (fun _ => none) = none
    ∧ SYMBOL_MAP.lookup "btc" = some "bitcoin" := by
  refine ⟨by decide, by decide, by decide⟩

unseal Rat.mul Rat.add Rat.sub Rat.inv Rat.ofScientific in
/-- C4 counterexample: a conversion whose amount parses as zero is not
rejected at the price-resolution boundary — `/convert 0 btc usd` computes
and displays the converted total `0`. -/
theorem convert_zero_amount_cex :
    convert_cmd ["0", "btc", "usd"] (fun _ => none)
        (fun _ _ => [("bitcoin", [("usd", (50000 : ℚ))])])
      = .success 0 "btc" "usd" 0 none
    ∧ convert_cmd ["0", "btc", "usd"] (fun _ => none)
        (fun _ _ => [("bitcoin", [("usd", (50000 : ℚ))])])
      ≠ .amountError := by
  refine ⟨by decide, by decide⟩

unseal Rat.mul Rat.add Rat.sub Rat.inv Rat.ofScientific in
/-- C5 counterexample: requesting `/prices btc,zzzz` when the upstream
payload only contains `bitcoin` renders a single line for BTC and no
"not found" entry for the missing id `zzzz` — missing ids are silently
omitted, not reported per-id. -/
theorem prices_missing_id_silent_cex :
    prices_cmd ["btc,zzzz"] "usd" (fun _ => none)
        (fun _ _ => [("bitcoin", [("usd", (50000 : ℚ))])])
      = .linesOut ["• BTC = 50,000.0000 USD"] := by decide

unseal Rat.mul Rat.add Rat.sub Rat.inv Rat.ofScientific in
/-- C6 counterexample: bot.py's `fmt_price` renders 1234.5 usd with four
decimal places (not exactly two), and collapses the micro-value 0.0000321
usd to `"0.0000 USD"`; crypto.py's usd formatter collapses it to
`"$0.00"` — no dynamic significant-digit rule exists. -/
theorem fmt_price_precision_cex :
    fmt_price (1234.5 : ℚ) "usd" = "1,234.5000 USD"
    ∧ fmt_price (0.0000321 : ℚ) "usd" = "0.0000 USD"
    ∧ Crypto.fmt_price (0.0000321 : ℚ) "usd" = "$0.00" := by
  refine ⟨by decide, by decide, by decide⟩

/-- C7 counterexample: `/price btc gbp` with `"gbp"` outside the
allow-list `{usd, usdt, idr, eur}` is not rejected — the fiat is passed
through to the upstream and a quote is rendered. -/
theorem price_cmd_fiat_not_validated_cex :
    price_cmd ["btc", "gbp"] "usd" (fun _ => none)
        (fun _ _ => [("bitcoin", [("gbp", (40000 : ℚ))])])
      = .quote "btc" "gbp" 40000 none
    ∧ "gbp" ∉ ["idr", "usd", "usdt", "eur"] := by
  refine ⟨by decide, by decide⟩

/-- C7 amended: only `/setfiat` validates the fiat — case-insensitively
against the allow-list `{idr, usd, usdt, eur}`, rejecting anything else
and leaving the stored preference untouched (never coercing to a
default); `/price` performs no allow-list validation at all and forwards
any fiat code (lowercased) to the upstream. -/
theorem setfiat_allowlist :
    (∀ (a : String) (rest : List String) (prefs : Int → Option String) (df : String)
        (chatId : Int),
      ((setfiat_cmd (a :: rest) prefs df chatId).1 = .okSet (lowerStr a) ↔
        lowerStr a ∈ ["idr", "usd", "usdt", "eur"])
      ∧ ((setfiat_cmd (a :: rest) prefs df chatId).1 = .invalid ↔
          lowerStr a ∉ ["idr", "usd", "usdt", "eur"])
      ∧ (setfiat_cmd (a :: rest) prefs df chatId).2
          = if lowerStr a ∈ ["idr", "usd", "usdt", "eur"]
            then set_chat_fiat prefs chatId (lowerStr a) else prefs)
    ∧ (∀ (sym f chatFiat : String) (search : String → Option String)
        (up : List String → String → Payload),
      price_cmd [sym, f] chatFiat search up = reply_price sym (lowerStr f) search up) := by
  constructor
  · intro a rest prefs df chatId
    by_cases h : lowerStr a ∈ ["idr", "usd", "usdt", "eur"]
    · refine ⟨?_, ?_, ?_⟩ <;> simp [setfiat_cmd, h]
    · refine ⟨?_, ?_, ?_⟩ <;> simp [setfiat_cmd, h]
  · intro sym f chatFiat search up
    rfl

/-- C3 amended: `resolve_coin_id` normalizes only by lowercasing and
trimming whitespace (no currency-glyph stripping), tries the static alias
table first with no network call; when the table misses, an input already
shaped like an id (`[a-z0-9-]{3,}`) is returned as-is — also with no
network call — and otherwise the remote-search result is returned
verbatim, so `None` is produced exactly when that final tier fails. -/
theorem resolve_coin_id_tiers :
    ∀ (sym : String) (search : String → Option String),
      (∀ c : String, SYMBOL_MAP.lookup (pyStripStr (lowerStr sym)) = some c →
        resolve_coin_id sym search = some c)
      ∧ (SYMBOL_MAP.lookup (pyStripStr (lowerStr sym)) = none →
          idShape (pyStripStr (lowerStr sym)).data = true →
          resolve_coin_id sym search = some (pyStripStr (lowerStr sym)))
      ∧ (SYMBOL_MAP.lookup (pyStripStr (lowerStr sym)) = none →
          idShape (pyStripStr (lowerStr sym)).data = false →
          resolve_coin_id sym search = search (pyStripStr (lowerStr sym))) := by
  intro sym search
  refine ⟨fun c hc => ?_, fun h1 h2 => ?_, fun h1 h2 => ?_⟩
  · simp [resolve_coin_id, hc]
  · simp [resolve_coin_id, h1, h2]
  · simp [resolve_coin_id, h1, h2]

/-- Witness for C3's amended theorem at concrete inputs. -/
theorem resolve_coin_id_tiers_witness :
    SYMBOL_MAP.lookup (pyStripStr (lowerStr "$BTC")) = none
    ∧ idShape (pyStripStr (lowerStr "$BTC")).data = false
    ∧ resolve_coin_id "$BTC" (fun _ => none) = (fun _ => none) (pyStripStr (lowerStr "$BTC")) :=
  ⟨by decide, by decide,
   (resolve_coin_id_tiers "$BTC" (fun _ => none)).2.2 (by decide) (by decide)⟩

/-- C4 amended: the amount of `/convert` is validated only for
parseability — a zero or negative amount is not rejected at the
price-resolution boundary; whenever the amount parses, the coin resolves
and the pair is in the payload, the converted total `price * amount` is
computed and displayed, including for `amount ≤ 0`. -/
theorem convert_no_amount_validation :
    ∀ (a0 a1 a2 : String) (rest : List String) (q : ℚ) (search : String → Option String)
      (up : List String → String → Payload) (cid : String) (price : ℚ),
      pyFloat a0 = some q → q ≤ 0 →
      resolve_coin_id a1 search = some cid →
      payloadLookup (up [cid] (lowerStr a2)) cid (lowerStr a2) = some price →
      convert_cmd (a0 :: a1 :: a2 :: rest) search up
        = .success q a1 (lowerStr a2) (price * q)
            (payloadLookup (up [cid] (lowerStr a2)) cid (lowerStr a2 ++ "_24h_change")) := by
  intro a0 a1 a2 rest q search up cid price hq hle hr hp
  simp [convert_cmd, hq, hr, fetch_price, hp]

unseal Rat.mul Rat.add Rat.sub Rat.inv Rat.ofScientific in
/-- Witness for C4's amended theorem at the concrete input `/convert 0 btc usd`. -/
theorem convert_no_amount_validation_witness :
    pyFloat "0" = some 0 ∧ ((0 : ℚ) ≤ 0)
    ∧ resolve_coin_id "btc" (fun _ => none) = some "bitcoin"
    ∧ convert_cmd ["0", "btc", "usd"] (fun _ => none)
        (fun _ _ => [("bitcoin", [("usd", (50000 : ℚ))])])
      = .success 0 "btc" "usd" 0 none := by
  refine ⟨by decide, le_refl 0, by decide, ?_⟩
  have h := convert_no_amount_validation "0" "btc" "usd" [] 0 (fun _ => none)
    (fun _ _ => [("bitcoin", [("usd", (50000 : ℚ))])]) "bitcoin" 50000
    (by decide) (le_refl 0) (by decide) (by decide)
  exact h.trans (by decide)

theorem map_lower_dropWhile_dollar (l : List Char) :
    ((l.map asciiLower).dropWhile (· == '$')).map asciiLower
      = (l.map asciiLower).dropWhile (· == '$') := by
  rw [List.dropWhile_map, map_asciiLower_idem]

theorem norm_symbol_eq (s : String) :
    Crypto.norm_symbol s
      = (Crypto.SYMBOL_MAP.lookup (String.mk ((s.data.map asciiLower).dropWhile (· == '$')))).getD
          (String.mk ((s.data.map asciiLower).dropWhile (· == '$'))) := by
  simp only [Crypto.norm_symbol]
  cases Crypto.SYMBOL_MAP.lookup (String.mk ((s.data.map asciiLower).dropWhile (· == '$'))) <;> rfl

theorem normKey_idem (s : String) :
    String.mk
        (((String.mk ((s.data.map asciiLower).dropWhile (· == '$'))).data.map
            asciiLower).dropWhile (· == '$'))
      = String.mk ((s.data.map asciiLower).dropWhile (· == '$')) := by
  show String.mk ((((s.data.map asciiLower).dropWhile (· == '$')).map asciiLower).dropWhile (· == '$'))
      = _
  rw [map_lower_dropWhile_dollar, dropWhile_dropWhile]

/-- C9: symbol normalization is idempotent —
`norm_symbol (norm_symbol s) = norm_symbol s` for every input string, and
every canonical id produced by the static alias table (including the
self-mapping entries `"sui"` and `"near"`) is a fixed point of
`norm_symbol`. -/
theorem norm_symbol_idem :
    (∀ s : String, Crypto.norm_symbol (Crypto.norm_symbol s) = Crypto.norm_symbol s)
    ∧ Crypto.norm_symbol "sui" = "sui"
    ∧ Crypto.norm_symbol "near" = "near"
    ∧ (Crypto.SYMBOL_MAP.all fun p => Crypto.norm_symbol p.2 == p.2) = true := by
  have hfix : ∀ p ∈ Crypto.SYMBOL_MAP, Crypto.norm_symbol p.2 = p.2 := by decide
  refine ⟨fun s => ?_, by decide, by decide, by decide⟩
  rw [norm_symbol_eq s]
  cases hl : Crypto.SYMBOL_MAP.lookup (String.mk ((s.data.map asciiLower).dropWhile (· == '$'))) with
  | some v =>
    simp only [Option.getD_some]
    exact hfix (_, v) (mem_of_lookup_eq_some hl)
  | none =>
    simp only [Option.getD_none]
    rw [norm_symbol_eq, normKey_idem s, hl]
    rfl

theorem ratFloor_eq_intFloor (q : ℚ) : q.floor = ⌊q⌋ :=
  (Rat.floor_def' q).trans Rat.floor_def.symm

theorem rheInt_eq_zero {x : ℚ} (h0 : 0 ≤ x) (h1 : x < 1 / 2) : rheInt x = 0 := by
  have hf : x.floor = 0 := by
    rw [ratFloor_eq_intFloor]
    exact Int.floor_eq_zero_iff.mpr (Set.mem_Ico.mpr ⟨h0, lt_trans h1 (by norm_num)⟩)
  simp only [rheInt, hf]
  rw [if_pos]
  simpa using h1

unseal Rat.mul Rat.add Rat.sub Rat.inv Rat.ofScientific in
/-- C6 amended: no dynamic significant-digit rule exists in either
formatter.  bot.py's `fmt_price` renders every usd value with thousands
grouping and exactly four decimal places, so every value in
`(0, 0.00005)` collapses to `"0.0000 USD"` and `1234.5` renders as
`"1,234.5000 USD"` (not two decimals); crypto.py's usd formatter does use
grouping with exactly two decimals for values ≥ 1, but collapses micro
values (they round to `"$0.00"`). -/
theorem fmt_price_fixed_precision :
    (∀ q : ℚ, 0 < q → q < 1 / 20000 → fmt_price q "usd" = "0.0000 USD")
    ∧ fmt_price (1234.5 : ℚ) "usd" = "1,234.5000 USD"
    ∧ Crypto.fmt_price (1234.5 : ℚ) "usd" = "$1,234.50"
    ∧ Crypto.fmt_price (50000 : ℚ) "usd" = "$50,000.00" := by
  refine ⟨fun q h0 h1 => ?_, by decide, by decide, by decide⟩
  have hneg : ¬ (q < 0) := not_lt.2 h0.le
  have hx0 : (0 : ℚ) ≤ q * (10 : ℚ) ^ (4 : ℕ) := by positivity
  have hx1 : q * (10 : ℚ) ^ (4 : ℕ) < 1 / 2 := by
    have h4 : (10 : ℚ) ^ (4 : ℕ) = 10000 := by norm_num
    rw [h4]
    have := mul_lt_mul_of_pos_right h1 (show (0 : ℚ) < 10000 by norm_num)
    linarith
  have hr : rheInt (q * (10 : ℚ) ^ (4 : ℕ)) = 0 := rheInt_eq_zero hx0 hx1
  simp only [fmt_price, fmtCommaFixed, if_neg hneg, hr]
  decide

unseal Rat.mul Rat.add Rat.sub Rat.inv Rat.ofScientific in
/-- Witness for C6's amended theorem at the concrete micro value 0.0000321 usd. -/
theorem fmt_price_fixed_precision_witness :
    ((0 : ℚ) < 0.0000321) ∧ ((0.0000321 : ℚ) < 1 / 20000)
    ∧ fmt_price (0.0000321 : ℚ) "usd" = "0.0000 USD" :=
  ⟨by norm_num, by norm_num,
   fmt_price_fixed_precision.1 0.0000321 (by norm_num) (by norm_num)⟩

/-- C5 amended: the `/prices` batch is partial but silent about misses —
every requested id present in the upstream payload contributes its
rendered quote line, while a requested id missing from the payload
contributes no line at all (it is skipped, not reported as not-found) and
does not disturb the lines of the remaining ids; no exception is raised
(the rendering is a total function). -/
theorem renderLines_missing_skipped :
    ∀ (ids₁ ids₂ : List String) (cid : String) (nameOf : String → String)
      (data : Payload) (fiat : String),
      (payloadLookup data cid fiat = none →
        renderLines (ids₁ ++ cid :: ids₂) nameOf data fiat
          = renderLines (ids₁ ++ ids₂) nameOf data fiat)
      ∧ (∀ p : ℚ, payloadLookup data cid fiat = some p →
          quoteLine (nameOf cid) fiat p (payloadLookup data cid (fiat ++ "_24h_change"))
            ∈ renderLines (ids₁ ++ cid :: ids₂) nameOf data fiat) := by
  intro ids₁ ids₂ cid nameOf data fiat
  constructor
  · intro h
    simp [renderLines, List.filterMap_append, List.filterMap_cons, h]
  · intro p hp
    simp only [renderLines, List.filterMap_append]
    refine List.mem_append_right _ ?_
    simp only [List.filterMap_cons, hp, Option.map_some]
    exact List.mem_cons_self _ _

unseal Rat.mul Rat.add Rat.sub Rat.inv Rat.ofScientific in
/-- Witness for C5's amended theorem on the concrete batch
`["bitcoin", "zzzz"]` against a payload containing only `bitcoin`. -/
theorem renderLines_missing_skipped_witness :
    payloadLookup [("bitcoin", [("usd", (50000 : ℚ))])] "zzzz" "usd" = none
    ∧ renderLines (["bitcoin"] ++ "zzzz" :: []) (fun _ => "BTC")
        [("bitcoin", [("usd", (50000 : ℚ))])] "usd"
      = renderLines (["bitcoin"] ++ []) (fun _ => "BTC")
        [("bitcoin", [("usd", (50000 : ℚ))])] "usd"
    ∧ payloadLookup [("bitcoin", [("usd", (50000 : ℚ))])] "bitcoin" "usd" = some 50000
    ∧ quoteLine ((fun _ => "BTC") "bitcoin") "usd" 50000
        (payloadLookup [("bitcoin", [("usd", (50000 : ℚ))])] "bitcoin" ("usd" ++ "_24h_change"))
      ∈ renderLines ([] ++ "bitcoin" :: ["zzzz"]) (fun _ => "BTC")
        [("bitcoin", [("usd", (50000 : ℚ))])] "usd" :=
  ⟨by decide,
   (renderLines_missing_skipped ["bitcoin"] [] "zzzz" (fun _ => "BTC")
     [("bitcoin", [("usd", (50000 : ℚ))])] "usd").1 (by decide),
   by decide,
   (renderLines_missing_skipped [] ["zzzz"] "bitcoin" (fun _ => "BTC")
     [("bitcoin", [("usd", (50000 : ℚ))])] "usd").2 50000 (by decide)⟩

theorem take_all_of_le_takeWhile (p : Char → Bool) :
    ∀ (l : List Char) (m : Nat), m ≤ (l.takeWhile p).length → (l.take m).all p = true := by
  intro l
  induction l with
  | nil => intro m _; simp
  | cons c t ih =>
    intro m h
    cases m with
    | zero => simp
    | succ k =>
      rw [List.takeWhile_cons] at h
      by_cases hp : p c = true
      · rw [if_pos hp] at h
        simp only [List.length_cons, Nat.succ_le_succ_iff] at h
        simp [hp, ih k h]
      · rw [if_neg hp] at h
        simp at h

theorem pairTryLens_take (t : List Char) :
    ∀ (n : Nat) (g1 g2 g3 : List Char), pairTryLens t n = some (g1, g2, g3) →
      ∃ m, 1 ≤ m ∧ m ≤ n ∧ g1 = t.take m := by
  intro n
  induction n with
  | zero => intro g1 g2 g3 h; simp [pairTryLens] at h
  | succ k ih =>
    intro g1 g2 g3 h
    simp only [pairTryLens] at h
    cases hpt : pairTail (t.drop (k + 1)) with
    | some pr =>
      obtain ⟨p2, p3⟩ := pr
      rw [hpt] at h
      simp only [Option.some.injEq, Prod.mk.injEq] at h
      exact ⟨k + 1, Nat.succ_le_succ (Nat.zero_le k), le_refl _, h.1.symm⟩
    | none =>
      rw [hpt] at h
      obtain ⟨m, hm1, hm2, hm3⟩ := ih g1 g2 g3 h
      exact ⟨m, hm1, Nat.le_succ_of_le hm2, hm3⟩

theorem PAIR_PATTERN_amount (s g1 g2 g3 : List Char)
    (h : PAIR_PATTERN s = some (g1, g2, g3)) : g1.all isDigitDot = true := by
  simp only [PAIR_PATTERN] at h
  obtain ⟨m, _, hm2, hm3⟩ := pairTryLens_take _ _ g1 g2 g3 h
  subst hm3
  exact take_all_of_le_takeWhile isDigitDot _ m hm2

theorem text_router_convert_amount (s a sy fi : String)
    (h : text_router s = .convert a sy fi) : a.data.all isDigitDot = true := by
  simp only [text_router] at h
  cases hp : PAIR_PATTERN (pyStripStr s).data with
  | some trip =>
    obtain ⟨g1, g2, g3⟩ := trip
    rw [hp] at h
    simp only [ParsedIntent.convert.injEq] at h
    have hda : a.data = g1 := by rw [← h.1]
    rw [hda]
    exact PAIR_PATTERN_amount _ g1 g2 g3 hp
  | none =>
    rw [hp] at h
    cases hc : COIN_FIAT_PAT (pyStripStr s).data with
    | some pr =>
      obtain ⟨x, y⟩ := pr
      rw [hc] at h
      simp at h
    | none =>
      rw [hc] at h
      cases hs : SINGLE_COIN (pyStripStr s).data with
      | some g => rw [hs] at h; simp at h
      | none => rw [hs] at h; simp at h

unseal Rat.mul Rat.add Rat.sub Rat.inv Rat.ofScientific in
/-- C2 amended: amount literals admit only digits and `'.'` — the
`[0-9.]+` amount group means every successfully parsed conversion line has
an amount string consisting solely of digits and dots, so no
comma-containing literal ever parses: `"1.234,56 eth idr"` and
`"1,234.56 eth idr"` both fall to the unrecognized fallback instead of
parsing as 1234.56, while the dot-only literal `"1234.56"` parses with
`'.'` as the decimal point to the value 1234.56. -/
theorem amount_literal_digits_dot :
    (∀ (s a sy fi : String), text_router s = .convert a sy fi → a.data.all isDigitDot = true)
    ∧ text_router "1234.56 eth idr" = .convert "1234.56" "eth" "idr"
    ∧ pyFloat "1234.56" = some (123456 / 100)
    ∧ text_router "1.234,56 eth idr" = .unrecognized
    ∧ text_router "1,234.56 eth idr" = .unrecognized :=
  ⟨text_router_convert_amount, by decide, by decide, by decide, by decide⟩

/-- Witness for C2's amended theorem at a concrete conversion line. -/
theorem amount_literal_digits_dot_witness :
    text_router "1234.56 eth idr" = .convert "1234.56" "eth" "idr"
    ∧ ("1234.56" : String).data.all isDigitDot = true :=
  ⟨by decide,
   amount_literal_digits_dot.1 "1234.56 eth idr" "1234.56" "eth" "idr" (by decide)⟩
